import Mathlib

/-
  Verification of the Lucky daemon (src/src/daemon.rs, src/src/daemon/tools.rs,
  src/src/daemon/hook_handlers.rs) through a shallow embedding in Lean.

  Conventions of the embedding:
  * Rust `HashMap` values are association lists `List (k × v)`; iteration order
    is the list order (a HashMap iterates in an unspecified but fixed order).
  * Rust `HashSet` values are `List` with membership-guarded insertion.
  * Timestamps (`chrono::DateTime<Local>`) are `Int`; each call of
    `Local::now()` in the source becomes an explicit parameter of the
    embedded function, in source order.
  * External effects (Docker engine calls, the filesystem, child processes)
    are returned as explicit data (operation traces, success flags) instead
    of being performed.
-/

namespace Lucky

/-- Lookup in an association list (the embedding of `HashMap::get`). -/
def lookupKV {α β : Type} [DecidableEq α] : List (α × β) → α → Option β
  | [], _ => none
  | p :: rest, k => if p.1 = k then some p.2 else lookupKV rest k

/-- Remove every entry with the given key (the embedding of `HashMap::remove`;
the two agree because a `HashMap` has at most one entry per key). -/
def removeKV {α β : Type} [DecidableEq α] (l : List (α × β)) (k : α) : List (α × β) :=
  l.filter (fun p => decide (p.1 ≠ k))

/-- Insert or replace a binding (the embedding of `HashMap::insert`). -/
def insertKV {α β : Type} [DecidableEq α] (l : List (α × β)) (k : α) (v : β) : List (α × β) :=
  match lookupKV l k with
  | some _ => l.map (fun p => if p.1 = k then (p.1, v) else p)
  | none => l ++ [(k, v)]

@[simp]
theorem lookupKV_nil {α β : Type} [DecidableEq α] (k : α) :
    lookupKV ([] : List (α × β)) k = none := rfl

@[simp]
theorem lookupKV_cons {α β : Type} [DecidableEq α] (p : α × β) (l : List (α × β)) (k : α) :
    lookupKV (p :: l) k = if p.1 = k then some p.2 else lookupKV l k := rfl

theorem lookupKV_eq_none {α β : Type} [DecidableEq α] (l : List (α × β)) (k : α)
    (h : lookupKV l k = none) : ∀ p ∈ l, p.1 ≠ k := by
  induction l with
  | nil => intro p hp; cases hp
  | cons q rest ih =>
    intro p hp
    rcases List.mem_cons.mp hp with hp | hp
    · subst hp
      intro hk
      simp [hk] at h
    · apply ih _ p hp
      by_cases hq : q.1 = k
      · simp [hq] at h
      · simpa [hq] using h

/-- If a key is absent, replacing-by-map leaves the list unchanged. -/
theorem map_replace_of_lookup_none {α β : Type} [DecidableEq α]
    (l : List (α × β)) (k : α) (v : β) (h : lookupKV l k = none) :
    l.map (fun p => if p.1 = k then (p.1, v) else p) = l := by
  induction l with
  | nil => rfl
  | cons q rest ih =>
    have hq : q.1 ≠ k := lookupKV_eq_none _ _ h q (by simp)
    have hrest : lookupKV rest k = none := by
      by_cases hqk : q.1 = k
      · exact absurd hqk hq
      · simpa [hqk] using h
    simp [hq, ih hrest]

/-! ## Script states and statuses

The `ScriptState` enum and the `ScriptStatus` struct live in `src/types.rs`,
which is not part of the provided sources. -/

/-- Modelled from the spec: `ScriptState` (src/types.rs is missing); §3 gives an
ordered enum with ascending precedence `Maintenance < Active < Blocked < Waiting`. -/
inductive ScriptState where
  | Maintenance
  | Active
  | Blocked
  | Waiting
deriving DecidableEq, Repr

/-- Numeric precedence of a state, following the spec order. -/
def ScriptState.precedence : ScriptState → Nat
  | .Maintenance => 0
  | .Active => 1
  | .Blocked => 2
  | .Waiting => 3

instance : LT ScriptState := ⟨fun a b => a.precedence < b.precedence⟩

instance : LE ScriptState := ⟨fun a b => a.precedence ≤ b.precedence⟩

instance (a b : ScriptState) : Decidable (a < b) :=
  inferInstanceAs (Decidable (a.precedence < b.precedence))

instance (a b : ScriptState) : Decidable (a ≤ b) :=
  inferInstanceAs (Decidable (a.precedence ≤ b.precedence))

theorem ScriptState.lt_def (a b : ScriptState) : (a < b) = (a.precedence < b.precedence) := rfl

theorem ScriptState.le_def (a b : ScriptState) : (a ≤ b) = (a.precedence ≤ b.precedence) := rfl

/-- Modelled from the spec: `ScriptStatus` is `(state, optional message)` (§3). -/
structure ScriptStatus where
  state : ScriptState
  message : Option String
deriving DecidableEq, Repr

/-! ## Status aggregation (src/src/daemon/tools.rs, `get_juju_status`) -/

/-- One iteration of the `for status in state.script_statuses.values()` loop of
`get_juju_status` (tools.rs lines 103-120): raise the state if the entry has
higher precedence and append the entry's message, comma separated, if present. -/
def jujuStatusStep (acc : ScriptState × Option String) (status : ScriptStatus) :
    ScriptState × Option String :=
  let st := if acc.1 < status.state then status.state else acc.1
  let msg :=
    match status.message, acc.2 with
    | some m, some cur => some (cur ++ ", " ++ m)
    | some m, none => some m
    | none, cur => cur
  (st, msg)

/-- Embedding of `get_juju_status` (tools.rs lines 97-127). The statuses are the
values of the `script_statuses` map in iteration order. The accumulator starts
from `ScriptState::default()`; src/types.rs is missing, and per spec §3 the
lowest-precedence state `Maintenance` is the bottom of the order, which is the
only default making the documented "max over all entries" aggregation true. -/
def get_juju_status (statuses : List ScriptStatus) : ScriptStatus :=
  let r := statuses.foldl jujuStatusStep (ScriptState.Maintenance, none)
  { state := r.1, message := r.2 }

/-- Comma-separated join, written from the spec words ("join of all messages
(in iteration order, comma-separated)") for comparison with the code. -/
def joinComma : List String → String
  | [] => ""
  | [m] => m
  | m :: rest => m ++ ", " ++ joinComma rest

/-- Spec-side aggregated message: the join of all present messages, none if no
script has a message. -/
def specMessage (statuses : List ScriptStatus) : Option String :=
  match statuses.filterMap ScriptStatus.message with
  | [] => none
  | msgs => some (joinComma msgs)

/-- Left fold of the message-joining part of the loop, isolated for reasoning. -/
def joinMsgs (acc : Option String) (ms : List String) : Option String :=
  ms.foldl
    (fun a m =>
      match a with
      | some cur => some (cur ++ ", " ++ m)
      | none => some m)
    acc

theorem joinComma_cons_cons (c m : String) (rest : List String) :
    joinComma ((c ++ ", " ++ m) :: rest) = c ++ ", " ++ joinComma (m :: rest) := by
  cases rest with
  | nil => simp [joinComma]
  | cons r rs => simp [joinComma, String.append_assoc]

theorem joinMsgs_some (ms : List String) : ∀ c, joinMsgs (some c) ms = some (joinComma (c :: ms)) := by
  induction ms with
  | nil => intro c; simp [joinMsgs, joinComma]
  | cons m rest ih =>
    intro c
    have step : joinMsgs (some c) (m :: rest) = joinMsgs (some (c ++ ", " ++ m)) rest := by
      simp [joinMsgs]
    rw [step, ih (c ++ ", " ++ m), joinComma_cons_cons]
    rfl

theorem joinMsgs_none (ms : List String) :
    joinMsgs none ms =
      match ms with
      | [] => none
      | m :: rest => some (joinComma (m :: rest)) := by
  cases ms with
  | nil => rfl
  | cons m rest =>
    have step : joinMsgs none (m :: rest) = joinMsgs (some m) rest := by
      simp [joinMsgs]
    rw [step, joinMsgs_some]

/-- The message component of the aggregation fold is `joinMsgs`. -/
theorem fold_msg (statuses : List ScriptStatus) :
    ∀ acc : ScriptState × Option String,
      (statuses.foldl jujuStatusStep acc).2 =
        joinMsgs acc.2 (statuses.filterMap ScriptStatus.message) := by
  induction statuses with
  | nil => intro acc; simp [joinMsgs]
  | cons s rest ih =>
    intro acc
    rw [List.foldl_cons, ih]
    cases hm : s.message with
    | none =>
      simp [List.filterMap_cons, hm, jujuStatusStep]
    | some m =>
      cases hacc : acc.2 with
      | none => simp [List.filterMap_cons, hm, jujuStatusStep, hacc, joinMsgs]
      | some cur => simp [List.filterMap_cons, hm, jujuStatusStep, hacc, joinMsgs]

/-- The state accumulator never decreases along the fold. -/
theorem fold_state_ge_acc (statuses : List ScriptStatus) :
    ∀ acc : ScriptState × Option String, acc.1 ≤ (statuses.foldl jujuStatusStep acc).1 := by
  induction statuses with
  | nil => intro acc; simp [ScriptState.le_def]
  | cons s rest ih =>
    intro acc
    have h2 := ih (jujuStatusStep acc s)
    have h1 : acc.1 ≤ (jujuStatusStep acc s).1 := by
      simp only [jujuStatusStep]
      split
      · next h => exact Nat.le_of_lt h
      · exact Nat.le_refl _
    rw [List.foldl_cons]
    exact Nat.le_trans h1 h2

/-- Every entry's state is bounded by the fold's result. -/
theorem fold_state_ub (statuses : List ScriptStatus) :
    ∀ acc : ScriptState × Option String,
      ∀ s ∈ statuses, s.state ≤ (statuses.foldl jujuStatusStep acc).1 := by
  induction statuses with
  | nil => intro acc s hs; cases hs
  | cons t rest ih =>
    intro acc s hs
    rw [List.foldl_cons]
    rcases List.mem_cons.mp hs with hs | hs
    · subst hs
      have h1 : s.state ≤ (jujuStatusStep acc s).1 := by
        simp only [jujuStatusStep]
        split
        · exact Nat.le_refl _
        · next h =>
          rw [ScriptState.le_def]
          rw [ScriptState.lt_def] at h
          omega
      exact Nat.le_trans h1 (fold_state_ge_acc rest _)
    · exact ih _ s hs

/-- The fold's state is either the seed or one of the entries' states. -/
theorem fold_state_mem (statuses : List ScriptStatus) :
    ∀ acc : ScriptState × Option String,
      (statuses.foldl jujuStatusStep acc).1 = acc.1 ∨
        ∃ s ∈ statuses, (statuses.foldl jujuStatusStep acc).1 = s.state := by
  induction statuses with
  | nil => intro acc; left; rfl
  | cons t rest ih =>
    intro acc
    rw [List.foldl_cons]
    rcases ih (jujuStatusStep acc t) with h | h
    · rw [h]
      simp only [jujuStatusStep]
      split
      · right; exact ⟨t, by simp, rfl⟩
      · left; rfl
    · rcases h with ⟨s, hs, hval⟩
      right
      exact ⟨s, by simp [hs], hval⟩

theorem eq_maintenance_of_le (s : ScriptState) (h : s ≤ ScriptState.Maintenance) :
    s = ScriptState.Maintenance := by
  cases s <;> simp_all [ScriptState.le_def, ScriptState.precedence]

/-- C5: for every `script_statuses` mapping, the aggregated unit status has state
equal to the maximum of all entries' states under the order
`Maintenance < Active < Blocked < Waiting` (an upper bound that is attained when
the map is nonempty, and the bottom state `Maintenance` for the empty map), and
has message equal to the comma-separated join of all present messages in
iteration order, or no message when no entry has one. -/
theorem get_juju_status_spec (statuses : List ScriptStatus) :
    (∀ s ∈ statuses, s.state ≤ (get_juju_status statuses).state) ∧
      (statuses ≠ [] → ∃ s ∈ statuses, (get_juju_status statuses).state = s.state) ∧
      (get_juju_status statuses).message = specMessage statuses := by
  refine ⟨?_, ?_, ?_⟩
  · intro s hs
    exact fold_state_ub statuses _ s hs
  · intro hne
    rcases fold_state_mem statuses (ScriptState.Maintenance, none) with h | h
    · cases statuses with
      | nil => exact absurd rfl hne
      | cons t rest =>
        refine ⟨t, by simp, ?_⟩
        have hub : t.state ≤ (get_juju_status (t :: rest)).state :=
          fold_state_ub (t :: rest) (ScriptState.Maintenance, none) t (by simp)
        have hval : (get_juju_status (t :: rest)).state = ScriptState.Maintenance := h
        rw [hval] at hub ⊢
        exact (eq_maintenance_of_le t.state hub).symm
    · exact h
  · show (statuses.foldl jujuStatusStep (ScriptState.Maintenance, none)).2 = specMessage statuses
    rw [fold_msg]
    show joinMsgs none (statuses.filterMap ScriptStatus.message) = specMessage statuses
    rw [joinMsgs_none, specMessage]
    cases statuses.filterMap ScriptStatus.message <;> rfl

/-- Witness for C5 at a concrete status map. -/
theorem get_juju_status_spec_witness :
    ([⟨ScriptState.Active, some "ready"⟩, ⟨ScriptState.Blocked, some "waiting on db"⟩] :
        List ScriptStatus) ≠ [] ∧
      (∃ s ∈ ([⟨ScriptState.Active, some "ready"⟩, ⟨ScriptState.Blocked, some "waiting on db"⟩] :
          List ScriptStatus),
        (get_juju_status
            [⟨ScriptState.Active, some "ready"⟩, ⟨ScriptState.Blocked, some "waiting on db"⟩]).state =
          s.state) := by
  constructor
  · decide
  · exact (get_juju_status_spec
      [⟨ScriptState.Active, some "ready"⟩, ⟨ScriptState.Blocked, some "waiting on db"⟩]).2.1
      (by decide)

/-! ## Hook dispatcher environment handling (src/src/daemon.rs, `trigger_hook`)

`trigger_hook` (daemon.rs lines 394-418) sets each `environment` key as a
process environment variable, runs the hook through
`handle_err!(self._trigger_hook(call, ..), call)`, and only then removes the
keys.  `handle_err!` expands to an early `return call.reply_error(e)` on
`Err`, so the removal loop is skipped when the hook fails.  The outcome of
`_trigger_hook` (pre-handler, scripts, post-handler — all external child
processes) is abstracted as the boolean `hook_ok`. -/

/-- Embedding of `trigger_hook`: given the process environment, the call's
environment map and whether `_trigger_hook` succeeded, return the process
environment after the call together with whether an error reply was sent. -/
def trigger_hook (procEnv environment : List (String × String)) (hook_ok : Bool) :
    List (String × String) × Bool :=
  let env1 := environment.foldl (fun e p => insertKV e p.1 p.2) procEnv
  if hook_ok then
    (environment.foldl (fun e p => removeKV e p.1) env1, false)
  else
    (env1, true)

theorem lookup_removeKV_self {β : Type} (l : List (String × β)) (k : String) :
    lookupKV (removeKV l k) k = none := by
  induction l with
  | nil => rfl
  | cons p rest ih =>
    by_cases hp : p.1 = k
    · simpa [removeKV, hp] using ih
    · simpa [removeKV, hp] using ih

theorem lookup_removeKV_none {β : Type} (l : List (String × β)) (k k2 : String)
    (h : lookupKV l k = none) : lookupKV (removeKV l k2) k = none := by
  induction l with
  | nil => rfl
  | cons p rest ih =>
    by_cases hpk : p.1 = k
    · simp [hpk] at h
    · have hrest : lookupKV rest k = none := by simpa [hpk] using h
      by_cases hp2 : p.1 = k2
      · simpa [removeKV, hp2] using ih hrest
      · simpa [removeKV, hp2, hpk] using ih hrest

theorem fold_remove_preserves_none (ks : List (String × String)) :
    ∀ (env : List (String × String)) (k : String), lookupKV env k = none →
      lookupKV (ks.foldl (fun e p => removeKV e p.1) env) k = none := by
  induction ks with
  | nil => intro env k h; exact h
  | cons p rest ih =>
    intro env k h
    rw [List.foldl_cons]
    exact ih _ k (lookup_removeKV_none env k p.1 h)

theorem fold_remove_removes (ks : List (String × String)) :
    ∀ (env : List (String × String)) (k : String), k ∈ ks.map Prod.fst →
      lookupKV (ks.foldl (fun e p => removeKV e p.1) env) k = none := by
  induction ks with
  | nil => intro env k h; cases h
  | cons p rest ih =>
    intro env k h
    rw [List.foldl_cons]
    simp only [List.map_cons] at h
    rcases List.mem_cons.mp h with hk | hk
    · exact fold_remove_preserves_none rest _ k (by rw [hk]; exact lookup_removeKV_self env p.1)
    · exact ih _ k (by simpa using hk)

/-- Counterexample for C1: with process environment initially empty, environment
map `{JUJU_RELATION ↦ db}` and a failing hook, `trigger_hook` replies an error
and returns with the added key still present in the process environment. -/
theorem trigger_hook_env_not_cleared_on_failure :
    (trigger_hook [] [("JUJU_RELATION", "db")] false).2 = true ∧
      lookupKV (trigger_hook [] [("JUJU_RELATION", "db")] false).1 "JUJU_RELATION" =
        some "db" := by
  constructor <;> rfl

/-- C1 (amended): when the hook's built-in handlers and scripts all succeed,
the process environment after `trigger_hook` contains none of the keys the call
added; when any of them fails, the call replies an error and returns with the
added keys still set (the removal loop is skipped by the early error return). -/
theorem trigger_hook_env_scope_amended (procEnv environment : List (String × String))
    (hook_ok : Bool) (k : String) (hk : k ∈ environment.map Prod.fst) :
    (hook_ok = true →
        lookupKV (trigger_hook procEnv environment hook_ok).1 k = none) ∧
      (hook_ok = false → (trigger_hook procEnv environment hook_ok).2 = true) := by
  constructor
  · intro hok
    subst hok
    exact fold_remove_removes environment _ k hk
  · intro hok
    subst hok
    rfl

/-- Witness for C1 (amended) at a concrete input. -/
theorem trigger_hook_env_scope_amended_witness :
    "LUCKY_A" ∈ ([("LUCKY_A", "1")] : List (String × String)).map Prod.fst ∧
      (true = true →
        lookupKV (trigger_hook [("HOME", "/root")] [("LUCKY_A", "1")] true).1 "LUCKY_A" = none) := by
  exact ⟨by decide, (trigger_hook_env_scope_amended [("HOME", "/root")] [("LUCKY_A", "1")] true
    "LUCKY_A" (by decide)).1⟩

/-! ## Cron engine (src/src/daemon.rs, `cron_tick`, lines 259-391)

The embedding abstracts one cron job `(schedule_str, scripts)` as:
* `parse_ok` — whether `schedule_str.parse::<cron::Schedule>()` succeeds
  (on failure `handle_err!` sends an error reply and leaves the scope closure,
  so no further job is examined);
* `next_fire` — the value of `schedule.after(&last_cron_tick).next()`, the
  first fire time strictly after the stored `last_tick`;
* `script_fails` — whether some script of the job reports an error over the
  result channel.

`Local::now()` is called twice in the source: once before the job loop
(line 278, bound to `now` and used in the fire comparison) and once after all
job results have been drained (line 384, stored into `last_cron_tick`).  The
two samples are the parameters `now_start` and `now_end`. -/

/-- One cron job, abstracted. -/
structure CronJob where
  parse_ok : Bool
  next_fire : Option Int
  script_fails : Bool
deriving DecidableEq, Repr

/-- The fire test of daemon.rs lines 293-294:
`if let Some(date) = schedule.after(&last_cron_tick).next() { if date < now { .. } }`. -/
def jobFires (now : Int) (j : CronJob) : Bool :=
  match j.next_fire with
  | some date => decide (date < now)
  | none => false

/-- Walk the job loop: returns per-job fire decisions (in order), whether some
fired job's script failed, and whether a schedule parse error cut the loop. -/
def scanJobs (now : Int) : List CronJob → List Bool × Bool × Bool
  | [] => ([], false, false)
  | j :: rest =>
    if j.parse_ok = false then ([], false, true)
    else
      let r := scanJobs now rest
      (jobFires now j :: r.1, (jobFires now j && j.script_fails) || r.2.1, r.2.2)

/-- Result of one `cron_tick` call. -/
structure TickResult where
  fired : List Bool
  replied_error : Bool
  last_tick : Int
deriving DecidableEq, Repr

/-- Embedding of `cron_tick`.  All fired jobs run to completion inside the
thread scope; afterwards the result channel is drained and `handle_err!`
returns early (skipping the `last_cron_tick` update) on the first script
error.  Otherwise `last_cron_tick` is set to the second `Local::now()` sample. -/
def cron_tick (last_tick now_start now_end : Int) (jobs : List CronJob) : TickResult :=
  if (scanJobs now_start jobs).2.1 then
    { fired := (scanJobs now_start jobs).1, replied_error := true, last_tick := last_tick }
  else
    { fired := (scanJobs now_start jobs).1, replied_error := (scanJobs now_start jobs).2.2,
      last_tick := now_end }

/-- Counterexample for C2: a tick with no jobs, `last_tick = 0`, first
`Local::now()` sample 1 and second sample 2 stores 2 — the sample taken after
the jobs have run — not the 1 sampled at the start of processing. -/
theorem cron_tick_last_tick_end_sample_cex :
    (cron_tick 0 1 2 []).last_tick = 2 ∧ (2 : Int) ≠ 1 := by
  constructor
  · rfl
  · decide

/-- C2 (amended): for every `cron_tick` call in which no fired job's script
fails, the stored `last_tick` is updated to a fresh "now" sampled after the
jobs have run (the source calls `Local::now()` a second time at line 384), not
to the "now" sampled at the start of processing. -/
theorem cron_tick_last_tick_amended (last_tick now_start now_end : Int)
    (jobs : List CronJob) (h : (scanJobs now_start jobs).2.1 = false) :
    (cron_tick last_tick now_start now_end jobs).last_tick = now_end := by
  simp [cron_tick, h]

/-- Witness for C2 (amended) at a concrete input. -/
theorem cron_tick_last_tick_amended_witness :
    (scanJobs 10 [⟨true, some 3, false⟩]).2.1 = false ∧
      (cron_tick 0 10 12 [⟨true, some 3, false⟩]).last_tick = 12 := by
  exact ⟨by decide, cron_tick_last_tick_amended 0 10 12 [⟨true, some 3, false⟩] (by decide)⟩

/-- Counterexample for C3: one job that fires (next fire 1 < now 5) and whose
script fails.  The tick replies the error, but `last_tick` stays 0 — it is not
advanced before the call returns, although time has moved on to 9. -/
theorem cron_tick_error_no_advance_cex :
    (cron_tick 0 5 9 [⟨true, some 1, true⟩]).replied_error = true ∧
      (cron_tick 0 5 9 [⟨true, some 1, true⟩]).last_tick = 0 ∧ (0 : Int) < 9 := by
  refine ⟨rfl, rfl, by decide⟩

theorem scanJobs_fired_of_parse_ok (now : Int) (jobs : List CronJob)
    (hp : ∀ j ∈ jobs, j.parse_ok = true) :
    (scanJobs now jobs).1 = jobs.map (jobFires now) := by
  induction jobs with
  | nil => rfl
  | cons j rest ih =>
    have hj : j.parse_ok = true := hp j (by simp)
    have hrest : ∀ x ∈ rest, x.parse_ok = true := fun x hx => hp x (by simp [hx])
    simp [scanJobs, hj, ih hrest]

/-- C3 (amended): when at least one fired job's script fails, the tick replies
the error, every due job still ran to completion (the fire decisions cover the
whole job list, independent of the failure), but `last_tick` is left unchanged:
the error reply returns from the handler before the update at line 384. -/
theorem cron_tick_error_amended (last_tick now_start now_end : Int)
    (jobs : List CronJob) (hp : ∀ j ∈ jobs, j.parse_ok = true)
    (hf : (scanJobs now_start jobs).2.1 = true) :
    (cron_tick last_tick now_start now_end jobs).replied_error = true ∧
      (cron_tick last_tick now_start now_end jobs).last_tick = last_tick ∧
      (cron_tick last_tick now_start now_end jobs).fired = jobs.map (jobFires now_start) := by
  refine ⟨?_, ?_, ?_⟩
  · simp [cron_tick, hf]
  · simp [cron_tick, hf]
  · simp [cron_tick, hf, scanJobs_fired_of_parse_ok now_start jobs hp]

/-- Witness for C3 (amended) at a concrete input: two jobs, the first fails,
the second still fires and runs. -/
theorem cron_tick_error_amended_witness :
    (∀ j ∈ ([⟨true, some 1, true⟩, ⟨true, some 2, false⟩] : List CronJob), j.parse_ok = true) ∧
      (cron_tick 0 5 9 [⟨true, some 1, true⟩, ⟨true, some 2, false⟩]).replied_error = true ∧
      (cron_tick 0 5 9 [⟨true, some 1, true⟩, ⟨true, some 2, false⟩]).last_tick = 0 ∧
      (cron_tick 0 5 9 [⟨true, some 1, true⟩, ⟨true, some 2, false⟩]).fired = [true, true] := by
  have h := cron_tick_error_amended 0 5 9 [⟨true, some 1, true⟩, ⟨true, some 2, false⟩]
    (by decide) (by decide)
  exact ⟨by decide, h.1, h.2.1, by rw [h.2.2]; decide⟩

/-- Counterexample for C6: a job whose next fire time equals the "now" sampled
for the tick (both 5) does not fire — the source compares with strict `<`. -/
theorem cron_fire_at_now_not_fired_cex :
    (cron_tick 0 5 9 [⟨true, some 5, false⟩]).fired = [false] := by
  rfl

/-- C6 (amended): when every schedule parses, job `i` fires on a tick exactly
when the next fire time computed strictly after `last_tick` is strictly before
the "now" sampled for that tick; a job whose next fire time equals "now" does
not fire. -/
theorem cron_fire_condition_amended (last_tick now_start now_end : Int)
    (jobs : List CronJob) (hp : ∀ j ∈ jobs, j.parse_ok = true)
    (i : Nat) (hi : i < jobs.length) :
    (cron_tick last_tick now_start now_end jobs).fired.getD i false = true ↔
      ∃ d, (jobs.getD i ⟨true, none, false⟩).next_fire = some d ∧ d < now_start := by
  have hfired : (cron_tick last_tick now_start now_end jobs).fired =
      jobs.map (jobFires now_start) := by
    unfold cron_tick
    split <;> exact scanJobs_fired_of_parse_ok now_start jobs hp
  rw [hfired]
  have hget : (jobs.map (jobFires now_start)).getD i false =
      jobFires now_start (jobs.getD i ⟨true, none, false⟩) := by
    simp only [List.getD, List.get?_map]
    rw [List.get?_eq_get hi]
    simp
  rw [hget]
  unfold jobFires
  cases hnf : (jobs.getD i ⟨true, none, false⟩).next_fire with
  | none => simp
  | some d =>
    simp only []
    constructor
    · intro h
      exact ⟨d, rfl, by simpa using h⟩
    · rintro ⟨d2, hd2, hlt⟩
      cases hd2
      simpa using hlt

/-- Witness for C6 (amended) at a concrete input. -/
theorem cron_fire_condition_amended_witness :
    (∀ j ∈ ([⟨true, some 3, false⟩] : List CronJob), j.parse_ok = true) ∧
      0 < ([⟨true, some 3, false⟩] : List CronJob).length ∧
      ((cron_tick 0 5 9 [⟨true, some 3, false⟩]).fired.getD 0 false = true ↔
        ∃ d, (([⟨true, some 3, false⟩] : List CronJob).getD 0 ⟨true, none, false⟩).next_fire =
            some d ∧ d < 5) := by
  exact ⟨by decide, by decide,
    cron_fire_condition_amended 0 5 9 [⟨true, some 3, false⟩] (by decide) 0 (by decide)⟩

/-! ## Port bindings (src/src/daemon.rs, `container_port_add`, lines 1061-1133)

`PortBinding` lives in `src/docker.rs`, which is not among the provided
sources; modelled from the spec §3: `(host_port: u16, container_port: u16,
protocol: string)` with structural equality.  A `u16` is a natural number
below 65536; the RPC receives `i64` ports and converts with `try_into`. -/

/-- Modelled from the spec: a port binding (docker.rs is missing). -/
structure PortBinding where
  host_port : Nat
  container_port : Nat
  protocol : String
deriving DecidableEq, Repr

/-- The conflict predicate of daemon.rs lines 1104-1113: same host port or same
container port, same protocol, and not the exact same binding. -/
def portConflict (b pb : PortBinding) : Bool :=
  (decide (b.host_port = pb.host_port) || decide (b.container_port = pb.container_port)) &&
    decide (b.protocol = pb.protocol) && decide (b ≠ pb)

/-- The port-set part of `container_port_add` for an existing container:
validate the `i64` ports (`try_into::<u16>`), search for a conflicting
binding (error reply, set untouched), otherwise insert into the `HashSet`.
Returns the resulting port set and whether an error was replied. -/
def addPortBinding (ports : List PortBinding) (host_port container_port : Int)
    (protocol : String) : List PortBinding × Bool :=
  if host_port < 0 ∨ 65535 < host_port then (ports, true)
  else if container_port < 0 ∨ 65535 < container_port then (ports, true)
  else
    match ports.find?
        (fun b => portConflict b ⟨host_port.toNat, container_port.toNat, protocol⟩) with
    | some _ => (ports, true)
    | none =>
      if (⟨host_port.toNat, container_port.toNat, protocol⟩ : PortBinding) ∈ ports then
        (ports, false)
      else
        (ports ++ [⟨host_port.toNat, container_port.toNat, protocol⟩], false)

/-- One `container_port_add` request. -/
structure PortAddReq where
  container_name : Option String
  host_port : Int
  container_port : Int
  protocol : String

/-- The port sets of all containers of the daemon state: the optional default
container's set and the named containers' sets. -/
structure ContainersPorts where
  default_ports : Option (List PortBinding)
  named_ports : List (String × List PortBinding)

/-- Embedding of the `container_port_add` RPC handler: route the request to
the default or the named container (a missing container leaves the state
unchanged and replies success), and update that container's port set. -/
def container_port_add (s : ContainersPorts) (req : PortAddReq) : ContainersPorts × Bool :=
  match req.container_name with
  | some n =>
    ({ default_ports := s.default_ports,
       named_ports := s.named_ports.map (fun p =>
         if p.1 = n then
           (p.1, (addPortBinding p.2 req.host_port req.container_port req.protocol).1)
         else p) },
     match lookupKV s.named_ports n with
     | some ports => (addPortBinding ports req.host_port req.container_port req.protocol).2
     | none => false)
  | none =>
    match s.default_ports with
    | some ports =>
      ({ default_ports := some (addPortBinding ports req.host_port req.container_port
           req.protocol).1,
         named_ports := s.named_ports },
       (addPortBinding ports req.host_port req.container_port req.protocol).2)
    | none => (s, false)

/-- Apply a sequence of port-add RPCs. -/
def applyPortAdds (s : ContainersPorts) (reqs : List PortAddReq) : ContainersPorts :=
  reqs.foldl (fun st r => (container_port_add st r).1) s

/-- Spec §8.5: every pair of bindings is equal, or differs in protocol, or
agrees on neither host port nor container port. -/
def ConflictFree (ports : List PortBinding) : Prop :=
  ∀ b1 ∈ ports, ∀ b2 ∈ ports,
    b1 = b2 ∨ b1.protocol ≠ b2.protocol ∨
      (b1.host_port ≠ b2.host_port ∧ b1.container_port ≠ b2.container_port)

/-- `ConflictFree` lifted to the optional default container. -/
def OptConflictFree : Option (List PortBinding) → Prop
  | none => True
  | some ports => ConflictFree ports

/-- Conflict freedom of every container's port set. -/
def StateConflictFree (s : ContainersPorts) : Prop :=
  OptConflictFree s.default_ports ∧ ∀ p ∈ s.named_ports, ConflictFree p.2

instance (ports : List PortBinding) : Decidable (ConflictFree ports) :=
  inferInstanceAs (Decidable (∀ b1 ∈ ports, ∀ b2 ∈ ports, _ ∨ _ ∨ _))

instance : (o : Option (List PortBinding)) → Decidable (OptConflictFree o)
  | none => .isTrue trivial
  | some ports => inferInstanceAs (Decidable (ConflictFree ports))

instance (s : ContainersPorts) : Decidable (StateConflictFree s) :=
  inferInstanceAs (Decidable (_ ∧ _))

theorem portConflict_false (b pb : PortBinding) (h : portConflict b pb = false) :
    b = pb ∨ b.protocol ≠ pb.protocol ∨
      (b.host_port ≠ pb.host_port ∧ b.container_port ≠ pb.container_port) := by
  simp only [portConflict, Bool.and_eq_false_iff, Bool.or_eq_false_iff,
    decide_eq_false_iff_not, not_not] at h
  rcases h with (⟨hh, hc⟩ | hp) | hb
  · right; right; exact ⟨hh, hc⟩
  · right; left; exact hp
  · left; exact hb

theorem conflictFree_sym_step (b pb : PortBinding)
    (h : b = pb ∨ b.protocol ≠ pb.protocol ∨
      (b.host_port ≠ pb.host_port ∧ b.container_port ≠ pb.container_port)) :
    pb = b ∨ pb.protocol ≠ b.protocol ∨
      (pb.host_port ≠ b.host_port ∧ pb.container_port ≠ b.container_port) := by
  rcases h with h | h | ⟨h1, h2⟩
  · left; exact h.symm
  · right; left; exact fun hx => h hx.symm
  · right; right; exact ⟨fun hx => h1 hx.symm, fun hx => h2 hx.symm⟩

/-- Adding a binding preserves conflict freedom of the set. -/
theorem addPortBinding_preserves (ports : List PortBinding) (hp cp : Int) (proto : String)
    (h : ConflictFree ports) : ConflictFree (addPortBinding ports hp cp proto).1 := by
  unfold addPortBinding
  split
  · exact h
  split
  · exact h
  cases hfind : ports.find? (fun b => portConflict b ⟨hp.toNat, cp.toNat, proto⟩) with
  | some b => exact h
  | none =>
    by_cases hmem : (⟨hp.toNat, cp.toNat, proto⟩ : PortBinding) ∈ ports
    · rw [if_pos hmem]
      exact h
    · rw [if_neg hmem]
      show ConflictFree (ports ++ [⟨hp.toNat, cp.toNat, proto⟩])
      have hnone := List.find?_eq_none.mp hfind
      intro b1 hb1 b2 hb2
      rcases List.mem_append.mp hb1 with hb1m | hb1m <;>
        rcases List.mem_append.mp hb2 with hb2m | hb2m
      · exact h b1 hb1m b2 hb2m
      · have hb2e : b2 = ⟨hp.toNat, cp.toNat, proto⟩ := by simpa using hb2m
        subst hb2e
        exact portConflict_false b1 _ (by simpa using hnone b1 hb1m)
      · have hb1e : b1 = ⟨hp.toNat, cp.toNat, proto⟩ := by simpa using hb1m
        subst hb1e
        exact conflictFree_sym_step b2 _ (portConflict_false b2 _ (by simpa using hnone b2 hb2m))
      · have hb1e : b1 = ⟨hp.toNat, cp.toNat, proto⟩ := by simpa using hb1m
        have hb2e : b2 = ⟨hp.toNat, cp.toNat, proto⟩ := by simpa using hb2m
        left
        rw [hb1e, hb2e]

/-- One RPC preserves conflict freedom of every container's port set. -/
theorem container_port_add_preserves (s : ContainersPorts) (req : PortAddReq)
    (h : StateConflictFree s) : StateConflictFree (container_port_add s req).1 := by
  obtain ⟨hdef, hnamed⟩ := h
  unfold container_port_add
  cases req.container_name with
  | some n =>
    refine ⟨hdef, ?_⟩
    intro p hp
    simp only [List.mem_map] at hp
    rcases hp with ⟨q, hq, hpq⟩
    by_cases hqn : q.1 = n
    · rw [← hpq]
      simp only [hqn, if_pos rfl]
      exact addPortBinding_preserves q.2 _ _ _ (hnamed q hq)
    · rw [← hpq]
      simp only [hqn, if_neg hqn]
      exact hnamed q hq
  | none =>
    cases hdp : s.default_ports with
    | some ports =>
      refine ⟨?_, hnamed⟩
      have : OptConflictFree (some ports) = ConflictFree ports := rfl
      exact addPortBinding_preserves ports _ _ _ (by rw [hdp] at hdef; exact hdef)
    | none => exact ⟨by rw [hdp] at hdef ⊢; exact hdef, hnamed⟩

/-- C4: starting from a state whose port sets are conflict-free, after any
sequence of `container_port_add` RPCs every pair of port bindings in each
container's port set is either equal, or differs in protocol, or agrees on
neither host port nor container port; and an add whose (valid) binding shares
the protocol and the host port or the container port with an existing
different binding is rejected with an error and leaves the port set
unchanged. -/
theorem container_port_add_invariant :
    (∀ (s : ContainersPorts) (reqs : List PortAddReq),
        StateConflictFree s → StateConflictFree (applyPortAdds s reqs)) ∧
      (∀ (ports : List PortBinding) (hp cp : Int) (proto : String) (b : PortBinding),
        b ∈ ports → 0 ≤ hp → hp ≤ 65535 → 0 ≤ cp → cp ≤ 65535 →
        b.protocol = proto → (b.host_port = hp.toNat ∨ b.container_port = cp.toNat) →
        b ≠ ⟨hp.toNat, cp.toNat, proto⟩ →
        addPortBinding ports hp cp proto = (ports, true)) := by
  constructor
  · intro s reqs
    induction reqs generalizing s with
    | nil => intro h; exact h
    | cons r rest ih =>
      intro h
      exact ih _ (container_port_add_preserves s r h)
  · intro ports hp cp proto b hb hp0 hp1 hc0 hc1 hproto hshare hne
    have hconf : portConflict b ⟨hp.toNat, cp.toNat, proto⟩ = true := by
      simp only [portConflict, Bool.and_eq_true, Bool.or_eq_true, decide_eq_true_eq]
      exact ⟨⟨hshare, hproto⟩, hne⟩
    have hsome : (ports.find? (fun x => portConflict x ⟨hp.toNat, cp.toNat, proto⟩)).isSome := by
      rw [List.find?_isSome]
      exact ⟨b, hb, hconf⟩
    unfold addPortBinding
    cases hfind : ports.find? (fun x => portConflict x ⟨hp.toNat, cp.toNat, proto⟩) with
    | some c =>
      rw [if_neg (by omega), if_neg (by omega)]
    | none => rw [hfind] at hsome; simp at hsome

/-- Witness for C4 at concrete inputs: one container with one binding, a
sequence of two adds (one fine, one conflicting), and a direct conflicting
add. -/
theorem container_port_add_invariant_witness :
    StateConflictFree
        ⟨some [⟨8080, 80, "tcp"⟩], [("web", [⟨443, 443, "tcp"⟩])]⟩ ∧
      StateConflictFree
        (applyPortAdds ⟨some [⟨8080, 80, "tcp"⟩], [("web", [⟨443, 443, "tcp"⟩])]⟩
          [⟨none, 9090, 90, "tcp"⟩, ⟨none, 8080, 81, "tcp"⟩]) ∧
      addPortBinding [⟨8080, 80, "tcp"⟩] 8080 81 "tcp" = ([⟨8080, 80, "tcp"⟩], true) := by
  refine ⟨by decide, ?_, ?_⟩
  · exact container_port_add_invariant.1
      ⟨some [⟨8080, 80, "tcp"⟩], [("web", [⟨443, 443, "tcp"⟩])]⟩
      [⟨none, 9090, 90, "tcp"⟩, ⟨none, 8080, 81, "tcp"⟩] (by decide)
  · exact container_port_add_invariant.2 [⟨8080, 80, "tcp"⟩] 8080 81 "tcp" ⟨8080, 80, "tcp"⟩
      (by decide) (by decide) (by decide) (by decide) (by decide) rfl (by decide) (by decide)

/-! ## Volume removal (src/src/daemon.rs, `container_volume_remove`, lines 957-1024)

The handler removes the target from the container's volume map and, when
`delete_data` is set and no other volume of the container maps to the same
source, deletes the source's on-disk data (`std::fs::remove_dir_all`) and
replies `true`; on every other path it replies `false`.  The filesystem
deletion is returned as `Option VolumeSource` (the source whose data was
deleted, if any). -/

/-- Embedding of the volume-map part of `container_volume_remove` for an
existing container: returns the remaining volume map, the source whose data
was deleted (if any), and the RPC's boolean reply. -/
def container_volume_remove (volumes : List (String × String)) (target : String)
    (delete_data : Bool) : List (String × String) × Option String × Bool :=
  match lookupKV volumes target with
  | some source =>
    if delete_data then
      if (removeKV volumes target).all (fun p => decide (p.2 ≠ source)) then
        (removeKV volumes target, some source, true)
      else
        (removeKV volumes target, none, false)
    else
      (removeKV volumes target, none, false)
  | none => (removeKV volumes target, none, false)

theorem lookupKV_of_mem_nodup {β : Type} (l : List (String × β)) (k : String) (v : β)
    (hnd : (l.map Prod.fst).Nodup) (hmem : (k, v) ∈ l) : lookupKV l k = some v := by
  induction l with
  | nil => cases hmem
  | cons p rest ih =>
    rw [List.map_cons, List.nodup_cons] at hnd
    rcases List.mem_cons.mp hmem with hm | hm
    · rw [← hm]
      simp
    · have hk : k ∈ rest.map Prod.fst := List.mem_map.mpr ⟨(k, v), hm, rfl⟩
      have hp1 : p.1 ≠ k := fun hcontra => hnd.1 (by rw [hcontra]; exact hk)
      simpa [hp1] using ih hnd.2 hm

theorem cvr_no_delete (volumes : List (String × String)) (target src : String)
    (hlk : lookupKV volumes target = some src) :
    container_volume_remove volumes target false = (removeKV volumes target, none, false) := by
  unfold container_volume_remove
  rw [hlk]
  rfl

theorem cvr_delete_unique (volumes : List (String × String)) (target src : String)
    (hlk : lookupKV volumes target = some src)
    (hall : (removeKV volumes target).all (fun p => decide (p.2 ≠ src)) = true) :
    container_volume_remove volumes target true =
      (removeKV volumes target, some src, true) := by
  unfold container_volume_remove
  rw [hlk]
  simp only [hall]
  rfl

theorem cvr_delete_shared (volumes : List (String × String)) (target src : String)
    (hlk : lookupKV volumes target = some src)
    (hall : (removeKV volumes target).all (fun p => decide (p.2 ≠ src)) = false) :
    container_volume_remove volumes target true = (removeKV volumes target, none, false) := by
  unfold container_volume_remove
  rw [hlk]
  simp only [hall]
  rfl

/-- C9: for every container whose volume map contains `(target, src)` (volume
maps have unique targets), `container_volume_remove` deletes the source's
on-disk data exactly when `delete_data` is true and no other volume of the
container maps to the same source; the boolean reply reports whether data was
deleted; with `delete_data = false` or when another volume shares the source,
no data is deleted and the reply is `false`. -/
theorem container_volume_remove_policy (volumes : List (String × String))
    (target src : String) (delete_data : Bool)
    (hnd : (volumes.map Prod.fst).Nodup) (hmem : (target, src) ∈ volumes) :
    ((container_volume_remove volumes target delete_data).2.1 = some src ↔
        delete_data = true ∧ ∀ p ∈ volumes, p.1 ≠ target → p.2 ≠ src) ∧
      ((container_volume_remove volumes target delete_data).2.1 = none ∨
        (container_volume_remove volumes target delete_data).2.1 = some src) ∧
      (container_volume_remove volumes target delete_data).2.2 =
        (container_volume_remove volumes target delete_data).2.1.isSome := by
  have hlk : lookupKV volumes target = some src := lookupKV_of_mem_nodup volumes target src hnd hmem
  have hother : (removeKV volumes target).all (fun p => decide (p.2 ≠ src)) = true ↔
      ∀ p ∈ volumes, p.1 ≠ target → p.2 ≠ src := by
    rw [List.all_eq_true]
    constructor
    · intro h p hp hpt
      have hpmem : p ∈ removeKV volumes target := by
        rw [removeKV, List.mem_filter]
        exact ⟨hp, by simpa using hpt⟩
      simpa using h p hpmem
    · intro h p hp
      rw [removeKV, List.mem_filter] at hp
      simp only [decide_eq_true_eq]
      exact h p hp.1 (by simpa using hp.2)
  cases delete_data with
  | false =>
    rw [cvr_no_delete volumes target src hlk]
    refine ⟨?_, Or.inl rfl, rfl⟩
    constructor
    · intro h
      simp at h
    · rintro ⟨h, -⟩
      simp at h
  | true =>
    cases hall : (removeKV volumes target).all (fun p => decide (p.2 ≠ src)) with
    | true =>
      rw [cvr_delete_unique volumes target src hlk hall]
      refine ⟨?_, Or.inr rfl, rfl⟩
      exact ⟨fun _ => ⟨rfl, hother.mp hall⟩, fun _ => rfl⟩
    | false =>
      rw [cvr_delete_shared volumes target src hlk hall]
      refine ⟨?_, Or.inl rfl, rfl⟩
      constructor
      · intro h
        simp at h
      · rintro ⟨-, hno⟩
        rw [hother.mpr hno] at hall
        cases hall

/-- Witness for C9 at a concrete volume map in which another volume shares the
source: nothing is deleted and the reply is false. -/
theorem container_volume_remove_policy_witness :
    ((container_volume_remove [("data", "vol1"), ("logs", "vol1")] "data" true).2.1 =
        some "vol1" ↔
        true = true ∧ ∀ p ∈ [("data", "vol1"), ("logs", "vol1")], p.1 ≠ "data" → p.2 ≠ "vol1") ∧
      (container_volume_remove [("data", "vol1"), ("logs", "vol1")] "data" true).2.2 =
        (container_volume_remove [("data", "vol1"), ("logs", "vol1")] "data" true).2.1.isSome := by
  have h := container_volume_remove_policy [("data", "vol1"), ("logs", "vol1")] "data" "vol1" true
    (by decide) (by decide)
  exact ⟨h.1, h.2.2⟩

/-! ## Container data model and dirty tracking

`ContainerInfo` and `ContainerConfig` live in `src/docker.rs` and the `Cd`
wrapper in `src/daemon/types.rs`; neither file is among the provided sources. -/

/-- Modelled from the spec: the desired container configuration (§3,
`ContainerInfo.config`; docker.rs is missing). -/
structure ContainerConfig where
  image : String
  entrypoint : Option String
  command : Option (List String)
  env_vars : List (String × String)
  volumes : List (String × String)
  ports : List PortBinding
  network : Option String
deriving DecidableEq, Repr

/-- Modelled from the spec: desired state plus runtime binding (§3). -/
structure ContainerInfo where
  config : ContainerConfig
  id : Option String
  pull_image : Bool
  pending_removal : Bool
deriving DecidableEq, Repr

/-- Modelled from the spec: `DirtyTracked<T>` alias `Cd<T>` (daemon/types.rs is
missing): a value with a dirty flag; mutation through `update` sets the flag,
`clean` clears it, `is_clean` queries it (§3, §9). -/
structure Cd (α : Type) where
  inner : α
  dirty : Bool
deriving DecidableEq, Repr

/-- Mutate through the wrapper: sets the dirty flag. -/
def Cd.update {α : Type} (c : Cd α) (f : α → α) : Cd α :=
  ⟨f c.inner, true⟩

/-- Clear the dirty flag. -/
def Cd.clean {α : Type} (c : Cd α) : Cd α :=
  ⟨c.inner, false⟩

/-- Query the dirty flag. -/
def Cd.is_clean {α : Type} (c : Cd α) : Bool :=
  !c.dirty

/-- Embedding of `DaemonState` (daemon.rs lines 38-54).  Maps are association
lists in iteration order; `charm_config` values are opaque JSON (§3), modelled
as their serialized text. -/
structure DaemonState where
  script_statuses : List (String × ScriptStatus)
  kv : List (String × Cd String)
  default_container : Option (Cd ContainerInfo)
  named_containers : List (String × Cd ContainerInfo)
  charm_config : List (String × Cd String)
deriving DecidableEq, Repr

/-! ## Container reconciliation (src/src/daemon/tools.rs, lines 218-312) -/

/-- A call into the Docker adapter, recorded instead of performed. -/
inductive DockerOp where
  | stop (id : String)
  | delete (id : String)
  | pull (image : String)
  | create (config : ContainerConfig)
  | start (id : String)
deriving DecidableEq, Repr

/-- Docker container ids handed out by `create`; the source stores
`create_info.id` returned by the engine, modelled as a fresh counter. -/
def newContainerId (fresh : Nat) : String :=
  "cid" ++ toString fresh

/-- Embedding of `apply_updates` (tools.rs lines 253-312): skip when the entry
is clean; otherwise stop and delete the running container if `id` is set and
clear `id`; then, unless the entry is pending removal, pull, create and start
a new container, record its id and clear the dirty flag.  Returns the updated
entry, the Docker operations issued, and the fresh-id counter. -/
def apply_updates (fresh : Nat) (ci : Cd ContainerInfo) :
    Cd ContainerInfo × List DockerOp × Nat :=
  if ci.is_clean then (ci, [], fresh)
  else
    match ci.inner.id with
    | some cid =>
      if ci.inner.pending_removal then
        ({ ci with inner := { ci.inner with id := none } },
         [DockerOp.stop cid, DockerOp.delete cid], fresh)
      else
        ({ inner := { ci.inner with id := some (newContainerId fresh) }, dirty := false },
         [DockerOp.stop cid, DockerOp.delete cid, DockerOp.pull ci.inner.config.image,
          DockerOp.create ci.inner.config, DockerOp.start (newContainerId fresh)],
         fresh + 1)
    | none =>
      if ci.inner.pending_removal then (ci, [], fresh)
      else
        ({ inner := { ci.inner with id := some (newContainerId fresh) }, dirty := false },
         [DockerOp.pull ci.inner.config.image, DockerOp.create ci.inner.config,
          DockerOp.start (newContainerId fresh)],
         fresh + 1)

/-- The `for mut container in state.named_containers.values_mut()` loop of
`apply_container_updates` (tools.rs lines 230-232). -/
def applyNamed (fresh : Nat) :
    List (String × Cd ContainerInfo) → List (String × Cd ContainerInfo) × List DockerOp × Nat
  | [] => ([], [], fresh)
  | (n, c) :: rest =>
    ((n, (apply_updates fresh c).1) ::
        (applyNamed (apply_updates fresh c).2.2 rest).1,
     (apply_updates fresh c).2.1 ++ (applyNamed (apply_updates fresh c).2.2 rest).2.1,
     (applyNamed (apply_updates fresh c).2.2 rest).2.2)

/-- The default-container part of `apply_container_updates` (tools.rs lines
240-247): apply updates, then clear the slot if the entry is pending removal. -/
def applyDefault (fresh : Nat) :
    Option (Cd ContainerInfo) → Option (Cd ContainerInfo) × List DockerOp × Nat
  | some c =>
    ((if (apply_updates fresh c).1.inner.pending_removal then none
      else some (apply_updates fresh c).1),
     (apply_updates fresh c).2.1, (apply_updates fresh c).2.2)
  | none => (none, [], fresh)

/-- Modelled from the spec: the `daemon_set_status!` macro (src/macros.rs is
missing) routes to `set_script_status` with a `__lucky::`-prefixed internal
script id (tools.rs lines 73-88), inserting the status into
`script_statuses`. -/
def daemon_set_status (s : DaemonState) (id : String) (st : ScriptStatus) : DaemonState :=
  { s with script_statuses := insertKV s.script_statuses id st }

/-- Embedding of `apply_container_updates` (tools.rs lines 218-251): set the
internal status to Maintenance, apply updates to every named container, drop
the named containers pending removal, apply updates to the default container
and clear it if pending removal, set the internal status to Active.  Returns
the new state, the Docker operations issued, and the fresh-id counter. -/
def apply_container_updates (s : DaemonState) (fresh : Nat) :
    DaemonState × List DockerOp × Nat :=
  ({ script_statuses :=
        insertKV
          (insertKV s.script_statuses "__lucky::apply_container_updates"
            ⟨ScriptState.Maintenance, some "Applying Docker configuration updates"⟩)
          "__lucky::apply_container_updates" ⟨ScriptState.Active, none⟩,
     kv := s.kv,
     default_container :=
       (applyDefault (applyNamed fresh s.named_containers).2.2 s.default_container).1,
     named_containers :=
       (applyNamed fresh s.named_containers).1.filter
         (fun p => decide (p.2.inner.pending_removal = false)),
     charm_config := s.charm_config },
   (applyNamed fresh s.named_containers).2.1 ++
     (applyDefault (applyNamed fresh s.named_containers).2.2 s.default_container).2.1,
   (applyDefault (applyNamed fresh s.named_containers).2.2 s.default_container).2.2)

theorem apply_updates_clean (fresh : Nat) (c : Cd ContainerInfo) (h : c.is_clean = true) :
    apply_updates fresh c = (c, [], fresh) := by
  unfold apply_updates
  rw [if_pos h]

theorem apply_updates_clean_or_pending (fresh : Nat) (c : Cd ContainerInfo) :
    (apply_updates fresh c).1.is_clean = true ∨
      (apply_updates fresh c).1.inner.pending_removal = true := by
  obtain ⟨⟨cfg, cid, pull, pend⟩, dirty⟩ := c
  cases dirty <;> cases pend <;> cases cid <;> simp [apply_updates, Cd.is_clean]

theorem applyNamed_clean_or_pending (l : List (String × Cd ContainerInfo)) :
    ∀ fresh, ∀ p ∈ (applyNamed fresh l).1,
      p.2.is_clean = true ∨ p.2.inner.pending_removal = true := by
  induction l with
  | nil => intro fresh p hp; cases hp
  | cons q rest ih =>
    intro fresh p hp
    rcases List.mem_cons.mp hp with hm | hm
    · rw [hm]
      exact apply_updates_clean_or_pending fresh q.2
    · exact ih _ p hm

theorem applyNamed_all_clean (l : List (String × Cd ContainerInfo)) :
    ∀ fresh, (∀ p ∈ l, p.2.is_clean = true) → applyNamed fresh l = (l, [], fresh) := by
  induction l with
  | nil => intro fresh _; rfl
  | cons q rest ih =>
    intro fresh h
    obtain ⟨n, c⟩ := q
    have hq : c.is_clean = true := h (n, c) (by simp)
    have hrest := ih fresh (fun p hp => h p (by simp [hp]))
    simp [applyNamed, apply_updates_clean fresh c hq, hrest]

theorem applyDefault_clean_result (fresh : Nat) (o : Option (Cd ContainerInfo))
    (c : Cd ContainerInfo) (h : (applyDefault fresh o).1 = some c) :
    c.is_clean = true ∧ c.inner.pending_removal = false := by
  cases o with
  | none => simp [applyDefault] at h
  | some c0 =>
    have h2 : (if (apply_updates fresh c0).1.inner.pending_removal = true then none
        else some (apply_updates fresh c0).1) = some c := h
    by_cases hp : (apply_updates fresh c0).1.inner.pending_removal = true
    · rw [if_pos hp] at h2
      simp at h2
    · rw [if_neg hp] at h2
      have hc : c = (apply_updates fresh c0).1 := (Option.some.inj h2).symm
      rcases apply_updates_clean_or_pending fresh c0 with hcl | hpend
      · refine ⟨hc ▸ hcl, ?_⟩
        rw [hc]
        simpa using hp
      · exact absurd hpend hp

theorem applyDefault_clean_input (fresh : Nat) (o : Option (Cd ContainerInfo))
    (h : ∀ c, o = some c → c.is_clean = true ∧ c.inner.pending_removal = false) :
    applyDefault fresh o = (o, [], fresh) := by
  cases o with
  | none => rfl
  | some c0 =>
    have hc := h c0 rfl
    show ((if (apply_updates fresh c0).1.inner.pending_removal = true then none
        else some (apply_updates fresh c0).1), (apply_updates fresh c0).2.1,
        (apply_updates fresh c0).2.2) = (some c0, [], fresh)
    rw [apply_updates_clean fresh c0 hc.1]
    simp [hc.2]

theorem acu_named (s : DaemonState) (fresh : Nat) :
    (apply_container_updates s fresh).1.named_containers =
      (applyNamed fresh s.named_containers).1.filter
        (fun p => decide (p.2.inner.pending_removal = false)) := rfl

theorem acu_default (s : DaemonState) (fresh : Nat) :
    (apply_container_updates s fresh).1.default_container =
      (applyDefault (applyNamed fresh s.named_containers).2.2 s.default_container).1 := rfl

theorem acu_ops (s : DaemonState) (fresh : Nat) :
    (apply_container_updates s fresh).2.1 =
      (applyNamed fresh s.named_containers).2.1 ++
        (applyDefault (applyNamed fresh s.named_containers).2.2 s.default_container).2.1 := rfl

/-- C7: applying container reconciliation twice in a row with no intervening
mutation of container desired state is a no-op.  After the first
`apply_container_updates` every remaining container entry's dirty flag is
clean; the second call issues no Docker stop, delete, pull, create, or start
operation and leaves every container entry as it was. -/
theorem apply_container_updates_idempotent (s : DaemonState) (fresh : Nat) :
    (∀ p ∈ (apply_container_updates s fresh).1.named_containers, p.2.is_clean = true) ∧
      (∀ c, (apply_container_updates s fresh).1.default_container = some c →
        c.is_clean = true) ∧
      (apply_container_updates (apply_container_updates s fresh).1
          (apply_container_updates s fresh).2.2).2.1 = [] ∧
      (apply_container_updates (apply_container_updates s fresh).1
          (apply_container_updates s fresh).2.2).1.named_containers =
        (apply_container_updates s fresh).1.named_containers ∧
      (apply_container_updates (apply_container_updates s fresh).1
          (apply_container_updates s fresh).2.2).1.default_container =
        (apply_container_updates s fresh).1.default_container := by
  have hnamed : ∀ p ∈ (apply_container_updates s fresh).1.named_containers,
      p.2.is_clean = true ∧ p.2.inner.pending_removal = false := by
    intro p hp
    rw [acu_named] at hp
    have hm := List.mem_filter.mp hp
    have hpend : p.2.inner.pending_removal = false := by simpa using hm.2
    rcases applyNamed_clean_or_pending s.named_containers fresh p hm.1 with hcl | hpd
    · exact ⟨hcl, hpend⟩
    · rw [hpend] at hpd
      cases hpd
  have hdefault : ∀ c, (apply_container_updates s fresh).1.default_container = some c →
      c.is_clean = true ∧ c.inner.pending_removal = false := by
    intro c hc
    rw [acu_default] at hc
    exact applyDefault_clean_result _ _ c hc
  have hnamed2 : applyNamed (apply_container_updates s fresh).2.2
      (apply_container_updates s fresh).1.named_containers =
      ((apply_container_updates s fresh).1.named_containers, [],
        (apply_container_updates s fresh).2.2) :=
    applyNamed_all_clean _ _ (fun p hp => (hnamed p hp).1)
  have hdef2 : applyDefault (apply_container_updates s fresh).2.2
      (apply_container_updates s fresh).1.default_container =
      ((apply_container_updates s fresh).1.default_container, [],
        (apply_container_updates s fresh).2.2) :=
    applyDefault_clean_input _ _ (fun c hc => hdefault c hc)
  have hfilter : ((apply_container_updates s fresh).1.named_containers).filter
      (fun p => decide (p.2.inner.pending_removal = false)) =
      (apply_container_updates s fresh).1.named_containers :=
    List.filter_eq_self.mpr (fun p hp => by simpa using (hnamed p hp).2)
  refine ⟨fun p hp => (hnamed p hp).1, fun c hc => (hdefault c hc).1, ?_, ?_, ?_⟩
  · rw [acu_ops, hnamed2, hdef2]
    rfl
  · rw [acu_named, hnamed2]
    exact hfilter
  · rw [acu_default, hnamed2, hdef2]

/-- Witness for C7 at a concrete state: one dirty named container, one dirty
default container pending removal. -/
theorem apply_container_updates_idempotent_witness :
    ∀ c, (apply_container_updates
        ⟨[], [],
          some ⟨⟨⟨"redis:6", none, none, [], [], [], none⟩, some "old", true, true⟩, true⟩,
          [("web", ⟨⟨⟨"nginx:1.25", none, none, [], [], [], none⟩, none, true, false⟩, true⟩)],
          []⟩ 0).1.default_container = some c → c.is_clean = true := by
  exact (apply_container_updates_idempotent
    ⟨[], [],
      some ⟨⟨⟨"redis:6", none, none, [], [], [], none⟩, some "old", true, true⟩, true⟩,
      [("web", ⟨⟨⟨"nginx:1.25", none, none, [], [], [], none⟩, none, true, false⟩, true⟩)],
      []⟩ 0).2.1

/-! ## Mutator RPCs on a missing container (src/src/daemon.rs)

Every container-desired-state mutator other than `container_image_set` looks
the container up with `named_containers.get_mut(name)` (or takes
`default_container.as_mut()`) and does nothing when the lookup fails, then
replies without error: `container_delete` (lines 641-661),
`container_set_entrypoint` (663-698), `container_set_command` (700-736),
`container_env_set` (882-917), `container_volume_add` (919-955),
`container_volume_remove` (957-1024), `container_port_add` (1061-1133),
`container_port_remove` (1135-1183), `container_port_remove_all`
(1185-1224) and `container_network_set` (1258-1288). -/

/-- Apply a function to the named container `n` (the effect of mutating
through `named_containers.get_mut(n)`); no entry is touched when `n` is
absent. -/
def modifyNamed (l : List (String × Cd ContainerInfo)) (n : String)
    (f : Cd ContainerInfo → Cd ContainerInfo) : List (String × Cd ContainerInfo) :=
  l.map (fun p => if p.1 = n then (p.1, f p.2) else p)

/-- Route a container mutation to the named or the default container slot. -/
def modifyContainer (s : DaemonState) (container_name : Option String)
    (f : Cd ContainerInfo → Cd ContainerInfo) : DaemonState :=
  match container_name with
  | some n => { s with named_containers := modifyNamed s.named_containers n f }
  | none => { s with default_container := s.default_container.map f }

/-- Embedding of `container_delete`: mark the container as pending removal;
always replies success (`false` = no error reply). -/
def container_delete (s : DaemonState) (container_name : Option String) : DaemonState × Bool :=
  (modifyContainer s container_name
    (fun c => c.update (fun ci => { ci with pending_removal := true })), false)

/-- Embedding of `container_set_entrypoint`: set `config.entrypoint`; always
replies success. -/
def container_set_entrypoint (s : DaemonState) (entrypoint : Option String)
    (container_name : Option String) : DaemonState × Bool :=
  (modifyContainer s container_name
    (fun c => c.update (fun ci => { ci with config := { ci.config with entrypoint := entrypoint } })),
   false)

/-- Embedding of `container_env_set`: upsert each provided variable (delete on
`none`); always replies success. -/
def container_env_set (s : DaemonState) (vars : List (String × Option String))
    (container_name : Option String) : DaemonState × Bool :=
  (modifyContainer s container_name
    (fun c => vars.foldl
      (fun c2 kv =>
        match kv.2 with
        | some v => c2.update (fun ci =>
            { ci with config := { ci.config with env_vars := insertKV ci.config.env_vars kv.1 v } })
        | none => c2.update (fun ci =>
            { ci with config := { ci.config with env_vars := removeKV ci.config.env_vars kv.1 } }))
      c),
   false)

/-- Embedding of `container_set_command`: set `config.command`; always replies
success. -/
def container_set_command (s : DaemonState) (command : Option (List String))
    (container_name : Option String) : DaemonState × Bool :=
  (modifyContainer s container_name
    (fun c => c.update (fun ci => { ci with config := { ci.config with command := command } })),
   false)

/-- Embedding of `container_network_set`: set `config.network`; always replies
success. -/
def container_network_set (s : DaemonState) (network_name : Option String)
    (container_name : Option String) : DaemonState × Bool :=
  (modifyContainer s container_name
    (fun c => c.update (fun ci => { ci with config := { ci.config with network := network_name } })),
   false)

/-- Embedding of `container_volume_add`: insert the target-to-source binding
into the container's volume map; always replies success. -/
def container_volume_add (s : DaemonState) (source target : String)
    (container_name : Option String) : DaemonState × Bool :=
  (modifyContainer s container_name
    (fun c => c.update (fun ci =>
      { ci with config := { ci.config with volumes := insertKV ci.config.volumes target source } })),
   false)

/-- The state-level effect of the `container_volume_remove` RPC: when the
container exists it mutates through `container.update(..)` (setting the dirty
flag) with the volume-map logic of `container_volume_remove` above, and the
reply is the data-deleted boolean, never an error (the filesystem removal is
modelled as succeeding, as in C9); when it is missing, the state is untouched
and the reply is `false`. -/
def container_volume_remove_state (s : DaemonState) (target : String) (delete_data : Bool)
    (container_name : Option String) : DaemonState × Bool :=
  (modifyContainer s container_name
    (fun c => c.update (fun ci =>
      { ci with config := { ci.config with
          volumes := (container_volume_remove ci.config.volumes target delete_data).1 } })),
   false)

/-- Route a container mutation that also computes a reply to the named or the
default container slot (the `get_mut` pattern of the port RPCs); a missing
container leaves the state unchanged and replies without error. -/
def mutateWithReply (s : DaemonState) (f : Cd ContainerInfo → Cd ContainerInfo × Bool) :
    Option String → DaemonState × Bool
  | some n =>
    match lookupKV s.named_containers n with
    | some c =>
      ({ s with named_containers := s.named_containers.map (fun p =>
          if p.1 = n then (p.1, (f p.2).1) else p) },
       (f c).2)
    | none => (s, false)
  | none =>
    match s.default_container with
    | some c => ({ s with default_container := some (f c).1 }, (f c).2)
    | none => (s, false)

/-- The state-level `container_port_add` RPC (daemon.rs lines 1061-1133): on
an existing container, a `try_into` failure or a conflicting binding replies
an error and leaves the entry untouched (no `update` call), otherwise the
binding is inserted through `update`; `addPortBinding` above carries that
logic.  A missing container replies success with the state unchanged. -/
def container_port_add_state (s : DaemonState) (host_port container_port : Int)
    (protocol : String) (container_name : Option String) : DaemonState × Bool :=
  mutateWithReply s
    (fun c =>
      if (addPortBinding c.inner.config.ports host_port container_port protocol).2 then
        (c, true)
      else
        (c.update (fun ci => { ci with config := { ci.config with
            ports := (addPortBinding ci.config.ports host_port container_port protocol).1 } }),
         false))
    container_name

/-- The state-level `container_port_remove` RPC (daemon.rs lines 1135-1183):
on an existing container the removal runs inside `container.update(..)` — the
dirty flag is set by any `update` call (§9) — and an invalid `i64` port
replies an error from within the closure before the binding is removed;
otherwise the binding is removed from the set.  A missing container replies
success with the state unchanged. -/
def container_port_remove_state (s : DaemonState) (host_port container_port : Int)
    (protocol : String) (container_name : Option String) : DaemonState × Bool :=
  mutateWithReply s
    (fun c =>
      if host_port < 0 ∨ 65535 < host_port ∨ container_port < 0 ∨ 65535 < container_port then
        (c.update (fun ci => ci), true)
      else
        (c.update (fun ci => { ci with config := { ci.config with
            ports := ci.config.ports.filter (fun b =>
              decide (b ≠ ⟨host_port.toNat, container_port.toNat, protocol⟩)) } }),
         false))
    container_name

/-- Embedding of `container_port_remove_all` (daemon.rs lines 1185-1224): for
each binding of a snapshot of the port set, remove it through `update`; a
container with no ports sees no `update` call.  Always replies success. -/
def container_port_remove_all (s : DaemonState) (container_name : Option String) :
    DaemonState × Bool :=
  (modifyContainer s container_name
    (fun c => c.inner.config.ports.foldl
      (fun c2 pb => c2.update (fun ci => { ci with config := { ci.config with
          ports := ci.config.ports.filter (fun b => decide (b ≠ pb)) } }))
      c),
   false)

theorem modifyNamed_of_lookup_none (l : List (String × Cd ContainerInfo)) (n : String)
    (f : Cd ContainerInfo → Cd ContainerInfo) (h : lookupKV l n = none) :
    modifyNamed l n f = l := by
  induction l with
  | nil => rfl
  | cons q rest ih =>
    have hq : q.1 ≠ n := lookupKV_eq_none _ _ h q (by simp)
    have hrest : lookupKV rest n = none := by
      by_cases hqn : q.1 = n
      · exact absurd hqn hq
      · simpa [hqn] using h
    have h2 : rest.map (fun p => if p.1 = n then (p.1, f p.2) else p) = rest := ih hrest
    simp only [modifyNamed, List.map_cons]
    rw [if_neg hq, h2]

theorem modifyContainer_missing (s : DaemonState) (container_name : Option String)
    (f : Cd ContainerInfo → Cd ContainerInfo)
    (h1 : ∀ n, container_name = some n → lookupKV s.named_containers n = none)
    (h2 : container_name = none → s.default_container = none) :
    modifyContainer s container_name f = s := by
  cases container_name with
  | some n =>
    show { s with named_containers := modifyNamed s.named_containers n f } = s
    rw [modifyNamed_of_lookup_none s.named_containers n f (h1 n rfl)]
  | none =>
    obtain ⟨a, b, dflt, d, e⟩ := s
    have hd : dflt = none := h2 rfl
    subst hd
    rfl

theorem mutateWithReply_missing (s : DaemonState)
    (f : Cd ContainerInfo → Cd ContainerInfo × Bool) (container_name : Option String)
    (h1 : ∀ n, container_name = some n → lookupKV s.named_containers n = none)
    (h2 : container_name = none → s.default_container = none) :
    mutateWithReply s f container_name = (s, false) := by
  cases container_name with
  | some n =>
    simp only [mutateWithReply]
    rw [h1 n rfl]
  | none =>
    obtain ⟨a, b, dflt, d, e⟩ := s
    have hd : dflt = none := h2 rfl
    subst hd
    rfl

/-- C10: calling any container-desired-state mutator RPC other than
`container_image_set` — `container_set_entrypoint`, `container_set_command`,
`container_env_set`, `container_volume_add`, `container_volume_remove`,
`container_port_add`, `container_port_remove`, `container_port_remove_all`,
`container_network_set` or `container_delete` — with a container name that has
no entry in `named_containers`, or with no name when no default container
exists, replies success without error, creates no container entry, and leaves
the entire daemon state unchanged. -/
theorem missing_container_rpcs_noop (s : DaemonState) (container_name : Option String)
    (entrypoint : Option String) (command : Option (List String))
    (vars : List (String × Option String)) (source target target2 : String)
    (delete_data : Bool) (hp cp hp2 cp2 : Int) (proto proto2 : String)
    (network_name : Option String)
    (h1 : ∀ n, container_name = some n → lookupKV s.named_containers n = none)
    (h2 : container_name = none → s.default_container = none) :
    container_set_entrypoint s entrypoint container_name = (s, false) ∧
      container_set_command s command container_name = (s, false) ∧
      container_env_set s vars container_name = (s, false) ∧
      container_volume_add s source target container_name = (s, false) ∧
      container_volume_remove_state s target2 delete_data container_name = (s, false) ∧
      container_port_add_state s hp cp proto container_name = (s, false) ∧
      container_port_remove_state s hp2 cp2 proto2 container_name = (s, false) ∧
      container_port_remove_all s container_name = (s, false) ∧
      container_network_set s network_name container_name = (s, false) ∧
      container_delete s container_name = (s, false) := by
  have hm : ∀ f, modifyContainer s container_name f = s :=
    fun f => modifyContainer_missing s container_name f h1 h2
  have hr : ∀ f, mutateWithReply s f container_name = (s, false) :=
    fun f => mutateWithReply_missing s f container_name h1 h2
  refine ⟨?_, ?_, ?_, ?_, ?_, ?_, ?_, ?_, ?_, ?_⟩
  · simp only [container_set_entrypoint]
    rw [hm]
  · simp only [container_set_command]
    rw [hm]
  · simp only [container_env_set]
    rw [hm]
  · simp only [container_volume_add]
    rw [hm]
  · simp only [container_volume_remove_state]
    rw [hm]
  · simp only [container_port_add_state]
    rw [hr]
  · simp only [container_port_remove_state]
    rw [hr]
  · simp only [container_port_remove_all]
    rw [hm]
  · simp only [container_network_set]
    rw [hm]
  · simp only [container_delete]
    rw [hm]

/-- Witness for C10 at a concrete state whose container map lacks the name:
the entrypoint setter and the port adder both leave it untouched. -/
theorem missing_container_rpcs_noop_witness :
    container_set_entrypoint
        ⟨[], [], none, [("db", ⟨⟨⟨"pg:16", none, none, [], [], [], none⟩, none, true, false⟩, true⟩)], []⟩
        (some "sh") (some "web") =
      (⟨[], [], none, [("db", ⟨⟨⟨"pg:16", none, none, [], [], [], none⟩, none, true, false⟩, true⟩)], []⟩,
        false) ∧
      container_port_add_state
        ⟨[], [], none, [("db", ⟨⟨⟨"pg:16", none, none, [], [], [], none⟩, none, true, false⟩, true⟩)], []⟩
        8080 80 "tcp" (some "web") =
      (⟨[], [], none, [("db", ⟨⟨⟨"pg:16", none, none, [], [], [], none⟩, none, true, false⟩, true⟩)], []⟩,
        false) := by
  have h := missing_container_rpcs_noop
    ⟨[], [], none, [("db", ⟨⟨⟨"pg:16", none, none, [], [], [], none⟩, none, true, false⟩, true⟩)], []⟩
    (some "web") (some "sh") (some ["sh", "-c"]) [("K", some "V")] "src" "/data" "/data"
    true 8080 80 8080 80 "tcp" "tcp" (some "bridge")
    (fun n hn => by cases hn; rfl)
    (fun hn => by cases hn)
  exact ⟨h.1, h.2.2.2.2.2.1⟩

/-! ## State persistence (src/src/daemon/tools.rs, `load_state` lines 17-35,
`flush_state` lines 38-64)

`flush_state` writes a comment line and then the YAML serialization of
`DaemonState`; `load_state` parses the file back (YAML ignores the comment).
The serde derives for `DaemonState` (with `script-statuses` renamed), for the
`Cd` wrapper and for `ScriptState` are in files not among the provided
sources, so the serialization is modelled from the spec (§6: a single YAML
document with top-level keys `script-statuses`, `kv`, `default_container`,
`named_containers`, `charm_config`) at the level of the YAML document tree:
each Lean encoder builds the tree a field-derived serializer emits, and each
decoder reads exactly that shape back. -/

/-- A YAML document tree (the subset the daemon state uses). -/
inductive Yaml where
  | nullV : Yaml
  | boolV : Bool → Yaml
  | natV : Nat → Yaml
  | strV : String → Yaml
  | seqV : List Yaml → Yaml
  | mapV : List (String × Yaml) → Yaml

def encOpt {α : Type} (f : α → Yaml) : Option α → Yaml
  | none => Yaml.nullV
  | some a => f a

def decOptT {α : Type} (f : Yaml → Option α) : Yaml → Option (Option α)
  | .nullV => some none
  | y => Option.map some (f y)

def decStr : Yaml → Option String
  | .strV s => some s
  | _ => none

def decBool : Yaml → Option Bool
  | .boolV b => some b
  | _ => none

def decNat : Yaml → Option Nat
  | .natV n => some n
  | _ => none

/-- Decode a list element by element; any failing element fails the list. -/
def decList {α : Type} (f : Yaml → Option α) : List Yaml → Option (List α)
  | [] => some []
  | y :: rest =>
    match f y, decList f rest with
    | some a, some l => some (a :: l)
    | _, _ => none

/-- Decode a YAML mapping's entries, keeping key order. -/
def decPairs {α : Type} (f : Yaml → Option α) :
    List (String × Yaml) → Option (List (String × α))
  | [] => some []
  | (k, y) :: rest =>
    match f y, decPairs f rest with
    | some a, some l => some ((k, a) :: l)
    | _, _ => none

def encMapOf {α : Type} (f : α → Yaml) (l : List (String × α)) : Yaml :=
  Yaml.mapV (l.map (fun p => (p.1, f p.2)))

def decMapOf {α : Type} (f : Yaml → Option α) : Yaml → Option (List (String × α))
  | .mapV l => decPairs f l
  | _ => none

def encScriptState : ScriptState → Yaml
  | .Maintenance => .strV "maintenance"
  | .Active => .strV "active"
  | .Blocked => .strV "blocked"
  | .Waiting => .strV "waiting"

def decScriptState : Yaml → Option ScriptState
  | .strV "maintenance" => some .Maintenance
  | .strV "active" => some .Active
  | .strV "blocked" => some .Blocked
  | .strV "waiting" => some .Waiting
  | _ => none

def encScriptStatus (st : ScriptStatus) : Yaml :=
  .mapV [("state", encScriptState st.state), ("message", encOpt Yaml.strV st.message)]

def decScriptStatus : Yaml → Option ScriptStatus
  | .mapV [("state", ys), ("message", ym)] =>
    match decScriptState ys, decOptT decStr ym with
    | some s, some m => some ⟨s, m⟩
    | _, _ => none
  | _ => none

def encPort (p : PortBinding) : Yaml :=
  .mapV [("host_port", .natV p.host_port), ("container_port", .natV p.container_port),
    ("protocol", .strV p.protocol)]

def decPort : Yaml → Option PortBinding
  | .mapV [("host_port", yh), ("container_port", yc), ("protocol", yp)] =>
    match decNat yh, decNat yc, decStr yp with
    | some h, some c, some pr => some ⟨h, c, pr⟩
    | _, _, _ => none
  | _ => none

def encStrList (l : List String) : Yaml :=
  .seqV (l.map Yaml.strV)

def decStrList : Yaml → Option (List String)
  | .seqV l => decList decStr l
  | _ => none

def encStrPairs (l : List (String × String)) : Yaml :=
  encMapOf Yaml.strV l

def decStrPairs : Yaml → Option (List (String × String)) :=
  decMapOf decStr

def encPortList (l : List PortBinding) : Yaml :=
  .seqV (l.map encPort)

def decPortList : Yaml → Option (List PortBinding)
  | .seqV l => decList decPort l
  | _ => none

def encConfig (c : ContainerConfig) : Yaml :=
  .mapV [("image", .strV c.image), ("entrypoint", encOpt Yaml.strV c.entrypoint),
    ("command", encOpt encStrList c.command), ("env_vars", encStrPairs c.env_vars),
    ("volumes", encStrPairs c.volumes), ("ports", encPortList c.ports),
    ("network", encOpt Yaml.strV c.network)]

def decConfig : Yaml → Option ContainerConfig
  | .mapV [("image", yi), ("entrypoint", ye), ("command", yc), ("env_vars", yv),
      ("volumes", yvol), ("ports", yp), ("network", yn)] =>
    match decStr yi, decOptT decStr ye, decOptT decStrList yc, decStrPairs yv,
        decStrPairs yvol, decPortList yp, decOptT decStr yn with
    | some image, some entry, some cmd, some env, some vols, some ports, some net =>
      some ⟨image, entry, cmd, env, vols, ports, net⟩
    | _, _, _, _, _, _, _ => none
  | _ => none

def encInfo (ci : ContainerInfo) : Yaml :=
  .mapV [("config", encConfig ci.config), ("id", encOpt Yaml.strV ci.id),
    ("pull_image", .boolV ci.pull_image), ("pending_removal", .boolV ci.pending_removal)]

def decInfo : Yaml → Option ContainerInfo
  | .mapV [("config", yc), ("id", yi), ("pull_image", ypl), ("pending_removal", ypr)] =>
    match decConfig yc, decOptT decStr yi, decBool ypl, decBool ypr with
    | some c, some i, some pl, some pr => some ⟨c, i, pl, pr⟩
    | _, _, _, _ => none
  | _ => none

def encCd {α : Type} (f : α → Yaml) (c : Cd α) : Yaml :=
  .mapV [("inner", f c.inner), ("dirty", .boolV c.dirty)]

def decCd {α : Type} (f : Yaml → Option α) : Yaml → Option (Cd α)
  | .mapV [("inner", yi), ("dirty", yd)] =>
    match f yi, decBool yd with
    | some a, some b => some ⟨a, b⟩
    | _, _ => none
  | _ => none

/-- The YAML document `flush_state` serializes (§6: the five top-level keys,
`script_statuses` renamed to `script-statuses` by serde). -/
def encState (d : DaemonState) : Yaml :=
  .mapV [("script-statuses", encMapOf encScriptStatus d.script_statuses),
    ("kv", encMapOf (encCd Yaml.strV) d.kv),
    ("default_container", encOpt (encCd encInfo) d.default_container),
    ("named_containers", encMapOf (encCd encInfo) d.named_containers),
    ("charm_config", encMapOf (encCd Yaml.strV) d.charm_config)]

def decState : Yaml → Option DaemonState
  | .mapV [("script-statuses", yss), ("kv", ykv), ("default_container", ydc),
      ("named_containers", ync), ("charm_config", ycc)] =>
    match decMapOf decScriptStatus yss, decMapOf (decCd decStr) ykv,
        decOptT (decCd decInfo) ydc, decMapOf (decCd decInfo) ync,
        decMapOf (decCd decStr) ycc with
    | some ss, some kv, some dc, some nc, some cc => some ⟨ss, kv, dc, nc, cc⟩
    | _, _, _, _, _ => none
  | _ => none

/-- Embedding of `flush_state` (tools.rs lines 38-64): the state file as the
leading comment line plus the serialized document. -/
def flush_state (d : DaemonState) : String × Yaml :=
  ("# The daemon state will be written to this file when the daemon is shutdown",
   encState d)

/-- Embedding of `load_state` (tools.rs lines 17-35) on an existing state
file: parse the document (the comment line is YAML commentary and carries no
content). -/
def load_state (file : String × Yaml) : Option DaemonState :=
  decState file.2

theorem decOptT_not_null {α : Type} (g : Yaml → Option α) (y : Yaml) (h : y ≠ Yaml.nullV) :
    decOptT g y = Option.map some (g y) := by
  cases y with
  | nullV => exact absurd rfl h
  | boolV b => rfl
  | natV n => rfl
  | strV s => rfl
  | seqV l => rfl
  | mapV l => rfl

theorem decOptT_enc {α : Type} (f : α → Yaml) (g : Yaml → Option α)
    (hfg : ∀ a, g (f a) = some a) (hnn : ∀ a, f a ≠ Yaml.nullV) (o : Option α) :
    decOptT g (encOpt f o) = some o := by
  cases o with
  | none => rfl
  | some a =>
    show decOptT g (f a) = some (some a)
    rw [decOptT_not_null g (f a) (hnn a), hfg a]
    rfl

theorem decList_enc {α : Type} (f : α → Yaml) (g : Yaml → Option α)
    (hfg : ∀ a, g (f a) = some a) (l : List α) : decList g (l.map f) = some l := by
  induction l with
  | nil => rfl
  | cons a rest ih => simp [decList, hfg, ih]

theorem decPairs_enc {α : Type} (f : α → Yaml) (g : Yaml → Option α)
    (hfg : ∀ a, g (f a) = some a) (l : List (String × α)) :
    decPairs g (l.map (fun p => (p.1, f p.2))) = some l := by
  induction l with
  | nil => rfl
  | cons p rest ih => simp [decPairs, hfg, ih]

theorem decMapOf_enc {α : Type} (f : α → Yaml) (g : Yaml → Option α)
    (hfg : ∀ a, g (f a) = some a) (l : List (String × α)) :
    decMapOf g (encMapOf f l) = some l := by
  simp [encMapOf, decMapOf, decPairs_enc f g hfg]

theorem decScriptState_enc (s : ScriptState) : decScriptState (encScriptState s) = some s := by
  cases s <;> rfl

theorem decScriptStatus_enc (st : ScriptStatus) :
    decScriptStatus (encScriptStatus st) = some st := by
  obtain ⟨s, m⟩ := st
  show decScriptStatus (Yaml.mapV [("state", encScriptState s),
    ("message", encOpt Yaml.strV m)]) = some ⟨s, m⟩
  simp [decScriptStatus, decScriptState_enc,
    decOptT_enc Yaml.strV decStr (fun a => rfl) (fun a h => Yaml.noConfusion h) m]

theorem decPort_enc (p : PortBinding) : decPort (encPort p) = some p := by
  obtain ⟨h, c, pr⟩ := p
  rfl

theorem decStrList_enc (l : List String) : decStrList (encStrList l) = some l := by
  show decList decStr (l.map Yaml.strV) = some l
  exact decList_enc Yaml.strV decStr (fun a => rfl) l

theorem decStrPairs_enc (l : List (String × String)) : decStrPairs (encStrPairs l) = some l :=
  decMapOf_enc Yaml.strV decStr (fun _ => rfl) l

theorem decPortList_enc (l : List PortBinding) : decPortList (encPortList l) = some l := by
  show decList decPort (l.map encPort) = some l
  exact decList_enc encPort decPort decPort_enc l

theorem decConfig_enc (c : ContainerConfig) : decConfig (encConfig c) = some c := by
  obtain ⟨im, ep, cmd, env, vols, ports, net⟩ := c
  show decConfig (Yaml.mapV [("image", Yaml.strV im), ("entrypoint", encOpt Yaml.strV ep),
    ("command", encOpt encStrList cmd), ("env_vars", encStrPairs env),
    ("volumes", encStrPairs vols), ("ports", encPortList ports),
    ("network", encOpt Yaml.strV net)]) = some ⟨im, ep, cmd, env, vols, ports, net⟩
  simp [decConfig, decStr,
    decOptT_enc Yaml.strV decStr (fun a => rfl) (fun a h => Yaml.noConfusion h),
    decOptT_enc encStrList decStrList decStrList_enc
      (fun _ h => by simp [encStrList] at h),
    decStrPairs_enc, decPortList_enc]

theorem decInfo_enc (ci : ContainerInfo) : decInfo (encInfo ci) = some ci := by
  obtain ⟨c, i, pl, pr⟩ := ci
  show decInfo (Yaml.mapV [("config", encConfig c), ("id", encOpt Yaml.strV i),
    ("pull_image", Yaml.boolV pl), ("pending_removal", Yaml.boolV pr)]) = some ⟨c, i, pl, pr⟩
  simp [decInfo, decConfig_enc, decBool,
    decOptT_enc Yaml.strV decStr (fun a => rfl) (fun a h => Yaml.noConfusion h)]

theorem decCd_enc {α : Type} (f : α → Yaml) (g : Yaml → Option α)
    (hfg : ∀ a, g (f a) = some a) (c : Cd α) : decCd g (encCd f c) = some c := by
  obtain ⟨a, d⟩ := c
  show decCd g (Yaml.mapV [("inner", f a), ("dirty", Yaml.boolV d)]) = some ⟨a, d⟩
  simp [decCd, hfg, decBool]

/-- C8: flushing a daemon state to the state file and loading it back yields
the same state: `script_statuses`, `kv`, `named_containers`, `charm_config`
and the default container slot are all preserved, including map entry order
(association lists keep insertion order, so equality holds outright and in
particular up to insertion order). -/
theorem state_round_trip (d : DaemonState) : load_state (flush_state d) = some d := by
  obtain ⟨ss, kv, dc, nc, cc⟩ := d
  show decState (encState ⟨ss, kv, dc, nc, cc⟩) = some ⟨ss, kv, dc, nc, cc⟩
  show decState (Yaml.mapV [("script-statuses", encMapOf encScriptStatus ss),
    ("kv", encMapOf (encCd Yaml.strV) kv),
    ("default_container", encOpt (encCd encInfo) dc),
    ("named_containers", encMapOf (encCd encInfo) nc),
    ("charm_config", encMapOf (encCd Yaml.strV) cc)]) = some ⟨ss, kv, dc, nc, cc⟩
  simp [decState,
    decMapOf_enc encScriptStatus decScriptStatus decScriptStatus_enc,
    decMapOf_enc (encCd Yaml.strV) (decCd decStr)
      (decCd_enc Yaml.strV decStr (fun a => rfl)),
    decMapOf_enc (encCd encInfo) (decCd decInfo) (decCd_enc encInfo decInfo decInfo_enc),
    decOptT_enc (encCd encInfo) (decCd decInfo) (decCd_enc encInfo decInfo decInfo_enc)
      (fun _ h => by simp [encCd] at h)]

end Lucky
